import Mathlib

/-!
Shallow embedding of the GameServer-Reborn state-synchronization core.

Each definition is translated from a concrete handler or helper of the
source tree (file and line references in the doc comments).  SQL tables
are modelled as lists of rows, the data directory as maps from path /
owner id to stored content, and the in-memory session table as an
association list mirroring the JS `Map` insertion-order semantics.
-/

namespace GameServer

/-! ## Friend graph (`Friends` table)

Schema (db bootstrap): `Friends(ownerMayhemId TEXT, friendMayhemId TEXT,
status TEXT, createdAt INTEGER)` — note there is NO unique or primary-key
constraint on `(ownerMayhemId, friendMayhemId)`, so SQLite
`INSERT OR IGNORE` on this table never ignores: it always inserts. -/

inductive FriendStatus
  | pending
  | accepted
deriving DecidableEq, Repr

structure FriendRow where
  ownerMayhemId : String
  friendMayhemId : String
  status : FriendStatus
  createdAt : Nat
deriving DecidableEq, Repr

abbrev FriendTable := List FriendRow

/-- The status strings stored in the `status` column. -/
def statusText : FriendStatus → String
  | .pending => "pending"
  | .accepted => "accepted"

/-- `SELECT 1 FROM Friends WHERE ownerMayhemId = a AND friendMayhemId = b AND
status = 'accepted' LIMIT 1` — the directed accepted-row check used by the
land fetch authorization (invitations.controller.js, `FRIEND_CHECK`). -/
def isAccepted (a b : String) (t : FriendTable) : Bool :=
  t.any fun r =>
    r.ownerMayhemId == a && r.friendMayhemId == b && r.status == FriendStatus.accepted

/-- `POST /invitations` (unnamed routing file, lines 458-509): looks up an
existing row in the (fromId, toId) direction ONLY; if found, returns its
status without inserting; otherwise inserts `(fromId, toId, 'pending')`
and returns `"pending"`. -/
def requestInvitation (fromId toId : String) (now : Nat) (t : FriendTable) :
    String × FriendTable :=
  match t.find? (fun r => r.ownerMayhemId == fromId && r.friendMayhemId == toId) with
  | some r => (statusText r.status, t)
  | none => ("pending", t ++ [⟨fromId, toId, FriendStatus.pending, now⟩])

/-- Result of the legacy `POST /friend/invite` endpoint
(invitations.controller.js, lines 208-235): a pre-existing row in the
(fromId, toId) direction is answered with HTTP 409 carrying the existing
status; otherwise a pending row is inserted and success is returned. -/
inductive InviteResult
  | conflictExists (status : String)
  | ok (status : String)
deriving DecidableEq, Repr

/-- Legacy `POST /friend/invite` (invitations.controller.js, lines 208-235). -/
def friendInvite (fromId toId : String) (now : Nat) (t : FriendTable) :
    InviteResult × FriendTable :=
  match t.find? (fun r => r.ownerMayhemId == fromId && r.friendMayhemId == toId) with
  | some r => (InviteResult.conflictExists (statusText r.status), t)
  | none => (InviteResult.ok "pending", t ++ [⟨fromId, toId, FriendStatus.pending, now⟩])

/-- `POST /:userId/invitations/inbound/:fromUserId`
(invitations.controller.js, lines 119-153).  First
`UPDATE Friends SET status='accepted' WHERE ownerMayhemId = fromId AND
friendMayhemId = userId AND status='pending'`; if that changed no row the
handler stops; otherwise `INSERT OR IGNORE` of the reciprocal
`(userId, fromId, 'accepted')` row — which, the table having no unique
constraint, is an unconditional insert. -/
def inboundAccept (userId fromId : String) (now : Nat) (t : FriendTable) :
    FriendTable :=
  let changed := t.filter fun r =>
    r.ownerMayhemId == fromId && r.friendMayhemId == userId &&
      r.status == FriendStatus.pending
  if changed.length = 0 then t
  else
    let t1 := t.map fun r =>
      if r.ownerMayhemId == fromId && r.friendMayhemId == userId &&
          r.status == FriendStatus.pending
      then { r with status := FriendStatus.accepted } else r
    t1 ++ [⟨userId, fromId, FriendStatus.accepted, now⟩]

/-- `POST /friends/confirmInvitation` (unnamed routing file, lines 588-625):
`UPDATE Friends SET status='accepted' WHERE (ownerMayhemId = fromId AND
friendMayhemId = userId) OR (ownerMayhemId = userId AND friendMayhemId =
fromId)` — only updates rows that already exist; no reciprocal insert. -/
def confirmInvitation (userId fromId : String) (t : FriendTable) : FriendTable :=
  t.map fun r =>
    if (r.ownerMayhemId == fromId && r.friendMayhemId == userId) ||
        (r.ownerMayhemId == userId && r.friendMayhemId == fromId)
    then { r with status := FriendStatus.accepted } else r

/-- `POST /friends/deleteFriend` (unnamed routing file, lines 628-665):
`DELETE FROM Friends WHERE (ownerMayhemId = userId AND friendMayhemId =
friendId) OR (ownerMayhemId = friendId AND friendMayhemId = userId)`. -/
def deleteFriend (userId friendId : String) (t : FriendTable) : FriendTable :=
  t.filter fun r =>
    !((r.ownerMayhemId == userId && r.friendMayhemId == friendId) ||
      (r.ownerMayhemId == friendId && r.friendMayhemId == userId))

/-! ## Land document store and event mailbox

`UserData` models the columns of the `UserData` table that the land
handlers read (`MayhemId`, `UserId`, `UserAccessToken`, `WholeLandToken`,
`LandSavePath`).  The data directory is modelled as a map from path to
stored bytes; the per-owner `.events` file (path
`{dataDirectory}/{owner}/{owner}.events`, a bijective function of the
owner id) as a map from owner id to the decoded event list, `none`
standing for a missing-or-undecodable file. -/

structure UserData where
  mayhemId : String
  userId : String
  userAccessToken : String
  wholeLandToken : String
  landSavePath : Option String
deriving DecidableEq, Repr

/-- One decoded `Data.EventMessage` as queued in an `.events` file
(metadata fields already stamped by the enqueue handler). -/
structure EventMsg where
  id : String
  fromPlayerId : String
  toPlayerId : String
deriving DecidableEq, Repr

structure ServerState where
  users : List UserData
  friends : FriendTable
  files : String → Option (List Nat)
  events : String → Option (List EventMsg)

/-- `SELECT ... FROM UserData WHERE MayhemId = ? OR UserId = ? LIMIT 1`. -/
def findUserByIdParam (idp : String) (us : List UserData) : Option UserData :=
  us.find? fun u => u.mayhemId == idp || u.userId == idp

/-- `SELECT ... FROM UserData WHERE UserAccessToken = ?`. -/
def findUserByToken (tok : String) (us : List UserData) : Option UserData :=
  us.find? fun u => u.userAccessToken == tok

/-- `SELECT ... FROM UserData WHERE MayhemId = ?`. -/
def findUserByMayhem (mid : String) (us : List UserData) : Option UserData :=
  us.find? fun u => u.mayhemId == mid

/-- The JS falsy test `!savePath || savePath == ""` on `LandSavePath`. -/
def noPath : Option String → Bool
  | none => true
  | some s => s == ""

/-- `config.dataDirectory` (config.json default). -/
def dataDirectory : String := "data"

/-- Lazily allocated land save path `${config.dataDirectory}/${landId}/${landId}.land`. -/
def defaultLandPath (landId : String) : String :=
  dataDirectory ++ "/" ++ landId ++ "/" ++ landId ++ ".land"

/-- Outcome of `GET /bg_gameserver_plugin/protoland/:landId`
(invitations.controller.js, lines 1050-1217).  `rejected` is the
400 Invalid-AccessToken XML sent to a requester who is neither the owner
nor an accepted friend — the spec's `Forbidden`; `landNotFound` is the
404 `NO_SUCH_RESOURCE/LAND_NOT_FOUND` XML. -/
inductive LandGetResult
  | missingToken
  | emptyLand (id : String)
  | rejected
  | landNotFound
  | ok (bytes : List Nat)
deriving DecidableEq, Repr

/-- Serving step of the land GET handler (lines 1139-1162): missing or
empty save path is 404, a stat failure (no stored file) is 404, a
zero-byte stored file is 404, otherwise the stored bytes are served. -/
def serveLand (userData : UserData) (st : ServerState) : LandGetResult :=
  if noPath userData.landSavePath then LandGetResult.landNotFound
  else
    match st.files (userData.landSavePath.getD "") with
    | none => LandGetResult.landNotFound
    | some [] => LandGetResult.landNotFound
    | some bs => LandGetResult.ok bs

/-- `GET /bg_gameserver_plugin/protoland/:landId`
(invitations.controller.js, lines 1050-1217), result component.  The
handler also refreshes presence and rewrites the message id / injects
visitor `friendListData` for a visiting friend before re-encoding; the
returned payload is modelled as the stored bytes (opaque per the spec's
serialize/deserialize boundary). -/
def getProtoland (landId : String) (reqToken : Option String) (st : ServerState) :
    LandGetResult :=
  match reqToken with
  | none => LandGetResult.missingToken
  | some tok =>
    match findUserByIdParam landId st.users with
    | none => LandGetResult.emptyLand landId
    | some userData =>
      let requesterMayhemId := (findUserByToken tok st.users).map (·.mayhemId)
      let isOwnLand := tok == userData.userAccessToken
      let isFriend := !isOwnLand &&
        (match requesterMayhemId with
         | some rm => isAccepted rm userData.mayhemId st.friends
         | none => false)
      if !isOwnLand && !isFriend then LandGetResult.rejected
      else serveLand userData st

/-- Outcome of `PUT /bg_gameserver_plugin/protoland/:landId`.  Note the
handler has no conflict outcome at all: the `land-update-token` header is
bound but never compared against the stored `WholeLandToken`. -/
inductive LandPutResult
  | missingToken
  | notFound
  | badToken
  | success
deriving DecidableEq, Repr

/-- Write step of the land PUT handler (lines 1299-1311): lazily allocate
and persist the save path if absent, write the body to the save path,
and delete the owner's `.events` file (`clearEventsFile`). -/
def landWrite (landId : String) (userData : UserData) (body : List Nat)
    (st : ServerState) : ServerState :=
  let allocate := noPath userData.landSavePath
  let savePath :=
    if allocate then defaultLandPath landId else userData.landSavePath.getD ""
  { st with
    users :=
      if allocate then
        st.users.map fun u =>
          if u.mayhemId == landId then { u with landSavePath := some savePath } else u
      else st.users
    files := fun p => if p = savePath then some body else st.files p
    events := fun o => if o = landId then none else st.events o }

/-- `PUT /bg_gameserver_plugin/protoland/:landId`
(invitations.controller.js, lines 1270-1317; the POST variant at
1220-1267 is identical).  `wholeLandToken` is the `land-update-token`
header, which the handler reads but never uses — there is no comparison
against the stored `WholeLandToken` and no conflict outcome. -/
def putProtoland (landId : String) (reqToken wholeLandToken : Option String)
    (body : List Nat) (st : ServerState) : LandPutResult × ServerState :=
  match reqToken with
  | none => (LandPutResult.missingToken, st)
  | some tok =>
    match findUserByMayhem landId st.users with
    | none => (LandPutResult.notFound, st)
    | some userData =>
      if tok != userData.userAccessToken then (LandPutResult.badToken, st)
      else (LandPutResult.success, landWrite landId userData body st)

/-- `POST /bg_gameserver_plugin/event/:toPlayerId/protoland/`
(invitations.controller.js, lines 527-607), storage step: load the
owner's `.events` file (missing or corrupt file starts a fresh list),
append the stamped message, write back. -/
def postEvent (ownerId : String) (e : EventMsg) (st : ServerState) : ServerState :=
  { st with
    events := fun o =>
      if o = ownerId then some ((st.events ownerId).getD [] ++ [e]) else st.events o }

/-- `GET /bg_gameserver_plugin/event/:friendId/protoland/`
(invitations.controller.js, lines 494-524): non-destructive read of the
owner's queue, in file order; a missing or corrupt file yields the empty
list.  The handler performs no write. -/
def getEvents (friendId : String) (st : ServerState) : List EventMsg :=
  (st.events friendId).getD []

/-! ## Currency ledger -/

/-- Decoded `Data.CurrencyData` file content. -/
structure CurrencyData where
  id : String
  vcTotalPurchased : Int
  vcTotalAwarded : Int
  vcBalance : Int
  createdAt : Int
  updatedAt : Int
deriving DecidableEq, Repr

structure CurrencyDelta where
  id : String
  amount : Int
deriving DecidableEq, Repr

/-- Currency step of `POST /bg_gameserver_plugin/extraLandUpdate/:landId/protoland/`
(invitations.controller.js, lines 844-879): sums the batch's `amount`s,
adds the sum to `vcTotalAwarded`, sets `vcBalance` to that same new
total (NOT adding `vcTotalPurchased`), carries `vcTotalPurchased` over,
and acknowledges each delta by echoing its `id`.  The returned pair is
(new file content, processed delta ids); the content is what the handler
persists to the currency save path. -/
def extraLandUpdateCurrency (cur : CurrencyData) (deltas : List CurrencyDelta)
    (now : Int) : CurrencyData × List String :=
  let donutDelta := deltas.foldl (fun acc cd => acc + cd.amount) 0
  let processed := deltas.map (fun cd => cd.id)
  let newTotal := cur.vcTotalAwarded + donutDelta
  ({ id := cur.id
     vcTotalPurchased := cur.vcTotalPurchased
     vcTotalAwarded := newTotal
     vcBalance := newTotal
     createdAt := 1715911362
     updatedAt := now }, processed)

/-! ## Presence / session manager (src/lib/sessionManager.js)

`activeSessions` is a JS `Map<userId, sessionData>`, modelled as an
association list preserving insertion order: `set` on an existing key
updates in place, otherwise appends.  Timestamps are `Date.now()`
milliseconds, modelled as `Int`.  The caller-supplied `additionalData`
spread is modelled as a separate `extra` field (callers pass only
`action`/`timestamp`/`username` keys, which do not collide with the core
fields). -/

/-- `this.sessionTimeout = 5 * 60 * 1000`. -/
def sessionTimeout : Int := 5 * 60 * 1000

structure SessionData where
  userId : String
  mayhemId : String
  hostname : String
  lastActive : Int
  connectedAt : Int
  sessionId : String
  extra : List (String × String)
deriving DecidableEq, Repr

abbrev SessionStore := List (String × SessionData)

/-- `this.activeSessions.get(userId)`. -/
def storeGet (uid : String) (st : SessionStore) : Option SessionData :=
  (st.find? (fun p => p.1 == uid)).map (·.2)

/-- `this.activeSessions.set(userId, data)` with JS `Map` semantics. -/
def storeSet (uid : String) (s : SessionData) (st : SessionStore) : SessionStore :=
  if st.any (fun p => p.1 == uid)
  then st.map (fun p => if p.1 == uid then (uid, s) else p)
  else st ++ [(uid, s)]

/-- `this.activeSessions.delete(userId)`. -/
def storeDelete (uid : String) (st : SessionStore) : SessionStore :=
  st.filter (fun p => !(p.1 == uid))

/-- `_isSessionStale` (sessionManager.js, lines 206-208):
`(Date.now() - session.lastActive) > this.sessionTimeout` — strictly
greater, so a session whose inactivity equals the timeout exactly is
still considered fresh. -/
def isSessionStale (now : Int) (s : SessionData) : Bool :=
  now - s.lastActive > sessionTimeout

/-- `trackSession` (sessionManager.js, lines 23-50).  Rejects falsy ids;
otherwise upserts, keeping `connectedAt`/`sessionId` from an existing
entry and stamping `lastActive := now`.  `freshSessionId` stands for the
`_generateSessionId()` value used only when no session exists. -/
def trackSession (userId mayhemId hostname : String)
    (extra : List (String × String)) (now : Int) (freshSessionId : String)
    (st : SessionStore) : Bool × SessionStore :=
  if userId == "" || mayhemId == "" then (false, st)
  else
    let prev := storeGet userId st
    let s : SessionData :=
      { userId := userId
        mayhemId := mayhemId
        hostname := hostname
        lastActive := now
        connectedAt := match prev with | some p => p.connectedAt | none => now
        sessionId := match prev with | some p => p.sessionId | none => freshSessionId
        extra := extra }
    (true, storeSet userId s st)

/-- `getSession` (sessionManager.js, lines 57-70): returns the session if
present and not stale; a stale session is deleted lazily and `null` is
returned. -/
def getSession (uid : String) (now : Int) (st : SessionStore) :
    Option SessionData × SessionStore :=
  match storeGet uid st with
  | some s =>
    if !isSessionStale now s then (some s, st) else (none, storeDelete uid st)
  | none => (none, st)

/-- Online status as observed through `getSession`: the spec's
`isOnline(accountId)`. -/
def isOnline (uid : String) (now : Int) (st : SessionStore) : Bool :=
  (getSession uid now st).1.isSome

/-- `updateActivity` (sessionManager.js, lines 107-114). -/
def updateActivity (uid : String) (now : Int) (st : SessionStore) :
    Bool × SessionStore :=
  match storeGet uid st with
  | some _ =>
    (true, st.map fun p => if p.1 == uid then (p.1, { p.2 with lastActive := now }) else p)
  | none => (false, st)

/-! ## Concrete states used by counterexamples and witnesses -/

def user42 : UserData :=
  { mayhemId := "42", userId := "1001", userAccessToken := "tok42"
    wholeLandToken := "T1", landSavePath := some "data/42/42.land" }

def user43 : UserData :=
  { mayhemId := "43", userId := "1002", userAccessToken := "tok43"
    wholeLandToken := "T3", landSavePath := none }

def baseState : ServerState :=
  { users := [user42, user43]
    friends := []
    files := fun p => if p = "data/42/42.land" then some [170, 187] else none
    events := fun _ => none }

def friendState : ServerState :=
  { baseState with friends := [⟨"43", "42", FriendStatus.accepted, 0⟩] }

def sessA : SessionData :=
  { userId := "A", mayhemId := "m", hostname := "h", lastActive := 0
    connectedAt := 0, sessionId := "sid0", extra := [] }

/-! ## Helper lemmas -/

/-- Removing both directed rows of a pair leaves neither direction accepted. -/
theorem isAccepted_deleteFriend (a b : String) (t : FriendTable) :
    isAccepted a b (deleteFriend a b t) = false ∧
      isAccepted b a (deleteFriend a b t) = false := by
  constructor <;>
  · simp only [isAccepted, deleteFriend, List.any_filter, List.any_eq_false]
    intro r _
    cases h1 : r.ownerMayhemId == a <;> cases h2 : r.friendMayhemId == b <;>
      cases h3 : r.ownerMayhemId == b <;> cases h4 : r.friendMayhemId == a <;>
        simp [h1, h2, h3, h4]

theorem foldl_amount (deltas : List CurrencyDelta) (s : Int) :
    deltas.foldl (fun acc cd => acc + cd.amount) s =
      s + (deltas.map (·.amount)).sum := by
  induction deltas generalizing s with
  | nil => simp
  | cons d ds ih => simp [List.foldl_cons, ih, add_assoc]

/-! ## C3 — friend symmetry -/

/-- C3 counterexample: the claim "after accept the friendship is symmetric
— isAccepted(A,B) == isAccepted(B,A) == true — ... and at no observable
point is exactly one of the two true" is false: accepting a lone pending
request (A,B) through `POST /friends/confirmInvitation` (which only
updates existing rows and inserts no reciprocal row) leaves
isAccepted(A,B) = true while isAccepted(B,A) = false. -/
theorem accept_symmetry_cex :
    isAccepted "A" "B" (confirmInvitation "B" "A" [⟨"A", "B", FriendStatus.pending, 0⟩]) = true ∧
    isAccepted "B" "A" (confirmInvitation "B" "A" [⟨"A", "B", FriendStatus.pending, 0⟩]) = false := by
  decide

/-- C3 amended: through the inbound-accept endpoint
(`POST /:userId/invitations/inbound/:fromUserId`), accepting a pending
request (A,B) makes isAccepted(A,B) and isAccepted(B,A) both true (the
reciprocal row is inserted unconditionally, the `Friends` table having no
unique constraint), and removing the pair via `deleteFriend` makes both
false.  Symmetry is not guaranteed through `confirmInvitation`, which
only updates rows that already exist. -/
theorem accept_symmetry_amended (t : FriendTable) (a b : String) (now : Nat)
    (h : t.any (fun r => r.ownerMayhemId == a && r.friendMayhemId == b &&
          r.status == FriendStatus.pending) = true) :
    isAccepted a b (inboundAccept b a now t) = true ∧
    isAccepted b a (inboundAccept b a now t) = true ∧
    isAccepted a b (deleteFriend a b (inboundAccept b a now t)) = false ∧
    isAccepted b a (deleteFriend a b (inboundAccept b a now t)) = false := by
  refine ⟨?_, ?_, (isAccepted_deleteFriend a b _).1, (isAccepted_deleteFriend a b _).2⟩
  · rcases List.any_eq_true.1 h with ⟨r, hr, hp⟩
    simp only [Bool.and_eq_true, beq_iff_eq] at hp
    obtain ⟨⟨ho, hf⟩, hs⟩ := hp
    unfold inboundAccept
    have hne : (t.filter fun r => r.ownerMayhemId == a && r.friendMayhemId == b &&
        r.status == FriendStatus.pending).length ≠ 0 := by
      have : r ∈ t.filter fun r => r.ownerMayhemId == a && r.friendMayhemId == b &&
          r.status == FriendStatus.pending := by
        refine List.mem_filter.2 ⟨hr, ?_⟩
        simp [ho, hf, hs]
      intro hlen
      rw [List.length_eq_zero] at hlen
      simp [hlen] at this
    simp only [hne, if_false]
    simp only [isAccepted, List.any_append, List.any_map]
    have : ∃ x, x ∈ t ∧ ((fun r : FriendRow =>
        r.ownerMayhemId == a && r.friendMayhemId == b &&
          r.status == FriendStatus.accepted) ∘ fun r =>
        if r.ownerMayhemId == a && r.friendMayhemId == b &&
            r.status == FriendStatus.pending
        then { r with status := FriendStatus.accepted } else r) x = true := by
      refine ⟨r, hr, ?_⟩
      simp [ho, hf, hs]
    rw [List.any_eq_true.2 this]
    rfl
  · rcases List.any_eq_true.1 h with ⟨r, hr, hp⟩
    simp only [Bool.and_eq_true, beq_iff_eq] at hp
    obtain ⟨⟨ho, hf⟩, hs⟩ := hp
    unfold inboundAccept
    have hne : (t.filter fun r => r.ownerMayhemId == a && r.friendMayhemId == b &&
        r.status == FriendStatus.pending).length ≠ 0 := by
      have : r ∈ t.filter fun r => r.ownerMayhemId == a && r.friendMayhemId == b &&
          r.status == FriendStatus.pending := by
        refine List.mem_filter.2 ⟨hr, ?_⟩
        simp [ho, hf, hs]
      intro hlen
      rw [List.length_eq_zero] at hlen
      simp [hlen] at this
    simp only [hne, if_false]
    simp [isAccepted, List.any_append]

/-- C3 amended, witness. -/
theorem accept_symmetry_amended_witness :
    ([⟨"A", "B", FriendStatus.pending, 0⟩] : FriendTable).any
        (fun r => r.ownerMayhemId == "A" && r.friendMayhemId == "B" &&
          r.status == FriendStatus.pending) = true ∧
    (isAccepted "A" "B" (inboundAccept "B" "A" 5 [⟨"A", "B", FriendStatus.pending, 0⟩]) = true ∧
     isAccepted "B" "A" (inboundAccept "B" "A" 5 [⟨"A", "B", FriendStatus.pending, 0⟩]) = true ∧
     isAccepted "A" "B" (deleteFriend "A" "B"
        (inboundAccept "B" "A" 5 [⟨"A", "B", FriendStatus.pending, 0⟩])) = false ∧
     isAccepted "B" "A" (deleteFriend "A" "B"
        (inboundAccept "B" "A" 5 [⟨"A", "B", FriendStatus.pending, 0⟩])) = false) :=
  ⟨by decide, accept_symmetry_amended [⟨"A", "B", FriendStatus.pending, 0⟩] "A" "B" 5 (by decide)⟩

/-! ## C4 — idempotent friend request -/

/-- C4 counterexample: the claim "calling request(A,B) when a row already
exists in either direction returns the existing status idempotently with
no duplicate row" is false: `POST /invitations` checks only the
(from, to) direction, so with a single reverse row (B,A,pending) in the
table, request(A,B) inserts a second row for the pair. -/
theorem request_reverse_duplicate_cex :
    (requestInvitation "A" "B" 7 [⟨"B", "A", FriendStatus.pending, 0⟩]).2.length = 2 ∧
    ((requestInvitation "A" "B" 7 [⟨"B", "A", FriendStatus.pending, 0⟩]).2.filter
      (fun x => (x.ownerMayhemId == "A" && x.friendMayhemId == "B") ||
        (x.ownerMayhemId == "B" && x.friendMayhemId == "A"))).length = 2 := by
  decide

/-- C4 amended: the duplicate check is directed.  When no (A,B)-directed
row exists, request(A,B) returns "pending" and appends exactly one
(A,B) row; calling it again returns the same "pending" status and leaves
the table unchanged.  A row existing only in the reverse direction (B,A)
is not detected, so a second row for the pair is then created (see the
counterexample); the legacy `/friend/invite` variant answers a duplicate
with an HTTP 409 error instead of the idempotent success. -/
theorem request_directed_idempotent (t : FriendTable) (a b : String) (n1 n2 : Nat)
    (h : t.find? (fun r => r.ownerMayhemId == a && r.friendMayhemId == b) = none) :
    (requestInvitation a b n1 t).1 = "pending" ∧
    ((requestInvitation a b n1 t).2.filter
      (fun r => r.ownerMayhemId == a && r.friendMayhemId == b)).length =
      (t.filter (fun r => r.ownerMayhemId == a && r.friendMayhemId == b)).length + 1 ∧
    (t.filter (fun r => r.ownerMayhemId == a && r.friendMayhemId == b)).length = 0 ∧
    (requestInvitation a b n2 (requestInvitation a b n1 t).2).1 = "pending" ∧
    (requestInvitation a b n2 (requestInvitation a b n1 t).2).2 =
      (requestInvitation a b n1 t).2 := by
  have hfil : t.filter (fun r => r.ownerMayhemId == a && r.friendMayhemId == b) = [] := by
    rw [List.filter_eq_nil_iff]
    intro x hx
    exact List.find?_eq_none.1 h x hx
  have h1 : requestInvitation a b n1 t =
      ("pending", t ++ [⟨a, b, FriendStatus.pending, n1⟩]) := by
    unfold requestInvitation
    rw [h]
  refine ⟨by rw [h1], ?_, by rw [hfil]; rfl, ?_, ?_⟩
  · rw [h1]
    simp [List.filter_append, hfil]
  · rw [h1]
    unfold requestInvitation
    rw [List.find?_append, h]
    simp [statusText]
  · rw [h1]
    unfold requestInvitation
    rw [List.find?_append, h]
    simp

/-- C4 amended, witness. -/
theorem request_directed_idempotent_witness :
    ([] : FriendTable).find?
        (fun r => r.ownerMayhemId == "A" && r.friendMayhemId == "B") = none ∧
    ((requestInvitation "A" "B" 3 ([] : FriendTable)).1 = "pending" ∧
     ((requestInvitation "A" "B" 3 ([] : FriendTable)).2.filter
       (fun r => r.ownerMayhemId == "A" && r.friendMayhemId == "B")).length =
       (([] : FriendTable).filter
         (fun r => r.ownerMayhemId == "A" && r.friendMayhemId == "B")).length + 1 ∧
     (([] : FriendTable).filter
       (fun r => r.ownerMayhemId == "A" && r.friendMayhemId == "B")).length = 0 ∧
     (requestInvitation "A" "B" 4 (requestInvitation "A" "B" 3 ([] : FriendTable)).2).1 =
       "pending" ∧
     (requestInvitation "A" "B" 4 (requestInvitation "A" "B" 3 ([] : FriendTable)).2).2 =
       (requestInvitation "A" "B" 3 ([] : FriendTable)).2) :=
  ⟨by decide, request_directed_idempotent [] "A" "B" 3 4 (by decide)⟩

/-! ## C5 — currency delta application -/

/-- C5 counterexample: the claim "recomputes balance = totalAwarded +
totalPurchased" is false: with totalPurchased = 5, totalAwarded = 10 and
a single delta of amount 3, the handler persists balance 13 (the new
totalAwarded alone), not 13 + 5 = 18. -/
theorem applyDelta_balance_cex :
    (extraLandUpdateCurrency ⟨"1", 5, 10, 15, 1715911362, 0⟩ [⟨"d1", 3⟩] 99).1.vcBalance = 13 ∧
    (extraLandUpdateCurrency ⟨"1", 5, 10, 15, 1715911362, 0⟩ [⟨"d1", 3⟩] 99).1.vcTotalAwarded = 13 ∧
    (extraLandUpdateCurrency ⟨"1", 5, 10, 15, 1715911362, 0⟩ [⟨"d1", 3⟩] 99).1.vcTotalPurchased = 5 ∧
    ¬ (extraLandUpdateCurrency ⟨"1", 5, 10, 15, 1715911362, 0⟩ [⟨"d1", 3⟩] 99).1.vcBalance =
      (extraLandUpdateCurrency ⟨"1", 5, 10, 15, 1715911362, 0⟩ [⟨"d1", 3⟩] 99).1.vcTotalAwarded +
      (extraLandUpdateCurrency ⟨"1", 5, 10, 15, 1715911362, 0⟩ [⟨"d1", 3⟩] 99).1.vcTotalPurchased := by
  decide

/-- C5 amended: applyDelta sums `amount` across the batch, adds the sum
to `totalAwarded`, carries `totalPurchased` over unchanged, sets
`balance` to the NEW totalAwarded alone (so balance = totalAwarded +
totalPurchased only when totalPurchased = 0), and returns one processed
acknowledgment per input delta, echoing its id. -/
theorem applyDelta_amended (cur : CurrencyData) (deltas : List CurrencyDelta) (now : Int) :
    (extraLandUpdateCurrency cur deltas now).1.vcTotalAwarded =
      cur.vcTotalAwarded + (deltas.map (·.amount)).sum ∧
    (extraLandUpdateCurrency cur deltas now).1.vcBalance =
      (extraLandUpdateCurrency cur deltas now).1.vcTotalAwarded ∧
    (extraLandUpdateCurrency cur deltas now).1.vcTotalPurchased = cur.vcTotalPurchased ∧
    (extraLandUpdateCurrency cur deltas now).2 = deltas.map (·.id) := by
  refine ⟨?_, rfl, rfl, rfl⟩
  show cur.vcTotalAwarded + deltas.foldl (fun acc cd => acc + cd.amount) 0 = _
  rw [foldl_amount]
  ring

/-! ## C6 — presence timeout -/

theorem find?_map_upd (uid : String) (s : SessionData) (st : SessionStore) :
    (st.map (fun p => if p.1 == uid then (uid, s) else p)).find? (fun p => p.1 == uid) =
      if st.any (fun p => p.1 == uid) then some (uid, s) else none := by
  induction st with
  | nil => rfl
  | cons hd tl ih =>
    simp only [List.map_cons, List.any_cons]
    rcases Bool.eq_false_or_eq_true (hd.1 == uid) with hh | hh
    · rw [if_pos hh]
      have hstep : List.find? (fun p => p.1 == uid)
          ((uid, s) :: List.map (fun p => if (p.1 == uid) = true then (uid, s) else p) tl) =
          some (uid, s) :=
        List.find?_cons_of_pos _ (by simp)
      rw [hstep]
      simp [hh]
    · have hnot : ¬((hd.1 == uid) = true) := by simp [hh]
      rw [if_neg hnot]
      have hstep : List.find? (fun p => p.1 == uid)
          (hd :: List.map (fun p => if (p.1 == uid) = true then (uid, s) else p) tl) =
          List.find? (fun p => p.1 == uid)
            (List.map (fun p => if (p.1 == uid) = true then (uid, s) else p) tl) :=
        List.find?_cons_of_neg _ hnot
      rw [hstep, ih]
      simp only [hh, Bool.false_or]

theorem storeGet_storeSet (uid : String) (s : SessionData) (st : SessionStore) :
    storeGet uid (storeSet uid s st) = some s := by
  unfold storeGet storeSet
  rcases Bool.eq_false_or_eq_true (st.any (fun p => p.1 == uid)) with hany | hany
  · rw [if_pos hany, find?_map_upd, if_pos hany]
    rfl
  · have hnone : st.find? (fun p => p.1 == uid) = none := by
      rw [List.find?_eq_none]
      intro x hx hpx
      have h2 : st.any (fun p => p.1 == uid) = true := List.any_eq_true.2 ⟨x, hx, hpx⟩
      rw [hany] at h2
      exact Bool.false_ne_true h2
    have hnot : ¬((st.any fun p => p.1 == uid) = true) := by simp [hany]
    rw [if_neg hnot, List.find?_append, hnone]
    simp

theorem getSession_none (v : String) (n : Int) (st : SessionStore)
    (h : storeGet v st = none) : getSession v n st = (none, st) := by
  unfold getSession
  rw [h]

theorem getSession_some (v : String) (n : Int) (st : SessionStore) (s : SessionData)
    (h : storeGet v st = some s) :
    getSession v n st =
      if !isSessionStale n s then (some s, st) else (none, storeDelete v st) := by
  unfold getSession
  rw [h]

/-- Online status, characterized: a session exists and its inactivity is
at most (non-strictly) the timeout. -/
theorem isOnline_iff (v : String) (n : Int) (st' : SessionStore) :
    isOnline v n st' = true ↔
      ∃ s, storeGet v st' = some s ∧ n - s.lastActive ≤ sessionTimeout := by
  unfold isOnline
  cases hget : storeGet v st' with
  | none =>
    rw [getSession_none v n st' hget]
    constructor
    · intro hfalse
      exact absurd hfalse Bool.false_ne_true
    · rintro ⟨s, hs, -⟩
      exact Option.noConfusion hs
  | some s =>
    rw [getSession_some v n st' s hget]
    rcases Bool.eq_false_or_eq_true (isSessionStale n s) with hstale | hstale
    · have hgt : sessionTimeout < n - s.lastActive := of_decide_eq_true hstale
      rw [hstale]
      constructor
      · intro hfalse
        exact absurd hfalse Bool.false_ne_true
      · rintro ⟨s', hs', hle⟩
        rw [Option.some.injEq] at hs'
        subst hs'
        exact absurd hle (not_le.2 hgt)
    · have hle : n - s.lastActive ≤ sessionTimeout :=
        not_lt.1 (of_decide_eq_false hstale)
      rw [hstale]
      constructor
      · intro _
        exact ⟨s, rfl, hle⟩
      · intro _
        rfl

/-- C6 counterexample: the claim's "isOnline is true iff a session exists
and now - lastActiveAt < timeout" is false at the boundary: staleness is
`now - lastActive > sessionTimeout` (strict), so at inactivity exactly
equal to the timeout the session is still reported online although
`now - lastActiveAt < timeout` fails. -/
theorem presence_boundary_cex :
    isOnline "A" sessionTimeout [("A", sessA)] = true ∧
    ¬ (sessionTimeout - sessA.lastActive < sessionTimeout) := by
  decide

/-- C6 amended: after track(A,...) with no further activity, isOnline(A)
is false once the inactivity strictly exceeds the timeout and true while
it is at most the timeout; in general isOnline is true iff a session
exists and now - lastActiveAt ≤ timeout (non-strict at the boundary). -/
theorem presence_timeout_amended
    (st : SessionStore) (uid mid host : String) (extra : List (String × String))
    (now0 now1 : Int) (fresh : String)
    (hu : (uid == "") = false) (hm : (mid == "") = false) :
    (sessionTimeout < now1 - now0 →
      isOnline uid now1 (trackSession uid mid host extra now0 fresh st).2 = false) ∧
    (now1 - now0 ≤ sessionTimeout →
      isOnline uid now1 (trackSession uid mid host extra now0 fresh st).2 = true) ∧
    (∀ (st' : SessionStore) (v : String) (n : Int),
      isOnline v n st' = true ↔
        ∃ s, storeGet v st' = some s ∧ n - s.lastActive ≤ sessionTimeout) := by
  have htrack : (trackSession uid mid host extra now0 fresh st).2 =
      storeSet uid
        { userId := uid, mayhemId := mid, hostname := host, lastActive := now0
          connectedAt := match storeGet uid st with | some p => p.connectedAt | none => now0
          sessionId := match storeGet uid st with | some p => p.sessionId | none => fresh
          extra := extra } st := by
    unfold trackSession
    simp [hu, hm]
  refine ⟨?_, ?_, fun st' v n => isOnline_iff v n st'⟩
  · intro hlate
    cases hon : isOnline uid now1 (trackSession uid mid host extra now0 fresh st).2 with
    | false => rfl
    | true =>
      exfalso
      rcases (isOnline_iff uid now1 _).1 hon with ⟨s, hs, hle⟩
      rw [htrack, storeGet_storeSet, Option.some.injEq] at hs
      subst hs
      exact absurd hle (not_le.2 hlate)
  · intro hin
    rw [htrack]
    refine (isOnline_iff uid now1 _).2 ⟨_, storeGet_storeSet _ _ _, ?_⟩
    exact hin

/-- C6 amended, witness. -/
theorem presence_timeout_amended_witness :
    (("A" == "") = false) ∧ (("m" == "") = false) ∧
    ((sessionTimeout < (400000 : Int) - 0 →
      isOnline "A" 400000 (trackSession "A" "m" "h" [] 0 "s1" []).2 = false) ∧
     ((400000 : Int) - 0 ≤ sessionTimeout →
      isOnline "A" 400000 (trackSession "A" "m" "h" [] 0 "s1" []).2 = true) ∧
     (∀ (st' : SessionStore) (v : String) (n : Int),
      isOnline v n st' = true ↔
        ∃ s, storeGet v st' = some s ∧ n - s.lastActive ≤ sessionTimeout)) :=
  ⟨by decide, by decide,
    presence_timeout_amended [] "A" "m" "h" [] 0 400000 "s1" (by decide) (by decide)⟩

/-! ## Land store equation lemmas -/

theorem putProtoland_of_found (landId tok : String) (wlt : Option String)
    (body : List Nat) (st : ServerState) (u : UserData)
    (hu : findUserByMayhem landId st.users = some u)
    (ht : tok = u.userAccessToken) :
    putProtoland landId (some tok) wlt body st =
      (LandPutResult.success, landWrite landId u body st) := by
  unfold putProtoland
  rw [hu]
  subst ht
  simp

theorem getProtoland_found (landId tok : String) (st : ServerState) (u : UserData)
    (hu : findUserByIdParam landId st.users = some u) :
    getProtoland landId (some tok) st =
      (if !(tok == u.userAccessToken) &&
          !(!(tok == u.userAccessToken) &&
            (match (findUserByToken tok st.users).map (·.mayhemId) with
             | some rm => isAccepted rm u.mayhemId st.friends
             | none => false))
       then LandGetResult.rejected
       else serveLand u st) := by
  unfold getProtoland
  rw [hu]

theorem serveLand_ne_rejected (u : UserData) (st : ServerState) :
    serveLand u st ≠ LandGetResult.rejected := by
  unfold serveLand
  rcases Bool.eq_false_or_eq_true (noPath u.landSavePath) with hnp | hnp
  · rw [if_pos hnp]
    exact fun h => LandGetResult.noConfusion h
  · rw [if_neg (by simp [hnp])]
    cases st.files (u.landSavePath.getD "") with
    | none => exact fun h => LandGetResult.noConfusion h
    | some bs =>
      cases bs with
      | nil => exact fun h => LandGetResult.noConfusion h
      | cons x xs => exact fun h => LandGetResult.noConfusion h

theorem map_wholeLandToken_setPath (users : List UserData) (landId sp : String) :
    ((users.map fun u =>
        if u.mayhemId == landId then { u with landSavePath := some sp } else u).map
      (·.wholeLandToken)) = users.map (·.wholeLandToken) := by
  induction users with
  | nil => rfl
  | cons hd tl ih =>
    simp only [List.map_cons, ih]
    congr 1
    rcases Bool.eq_false_or_eq_true (hd.mayhemId == landId) with hh | hh
    · rw [if_pos hh]
    · rw [if_neg (by simp [hh])]

/-! ## C1 — save-token conflict -/

/-- C1 counterexample: the claim "a document write presenting T1 succeeds
and issues a new token T2, and any subsequent write still presenting T1
is rejected with Conflict" is false.  With stored save token "T1", a
write presenting "T1" succeeds but the stored token is still "T1" (no
new token is issued), and a second write still presenting "T1" succeeds
again instead of being rejected with Conflict — the PUT handler never
reads the presented `land-update-token` and has no conflict outcome. -/
theorem save_token_never_checked_cex :
    (putProtoland "42" (some "tok42") (some "T1") [170, 187] baseState).1 =
      LandPutResult.success ∧
    (findUserByMayhem "42"
        (putProtoland "42" (some "tok42") (some "T1") [170, 187] baseState).2.users).map
      (·.wholeLandToken) = some "T1" ∧
    (putProtoland "42" (some "tok42") (some "T1") [1]
        (putProtoland "42" (some "tok42") (some "T1") [170, 187] baseState).2).1 =
      LandPutResult.success := by
  decide

/-- C1 amended: the land write path never checks the presented save
token.  A write whose bearer access token matches succeeds regardless of
which `land-update-token` (if any) is supplied — the result is
independent of that header — no Conflict is ever issued, and the stored
`WholeLandToken` of every account is unchanged by the write (tokens
rotate only through the explicit `protoWholeLandToken` endpoint).  A
write that supplies no token likewise proceeds. -/
theorem put_ignores_save_token (st : ServerState) (landId tok : String)
    (body : List Nat) (u : UserData) (p1 p2 : Option String)
    (hu : findUserByMayhem landId st.users = some u)
    (ht : tok = u.userAccessToken) :
    putProtoland landId (some tok) p1 body st =
      putProtoland landId (some tok) p2 body st ∧
    (putProtoland landId (some tok) p1 body st).1 = LandPutResult.success ∧
    ((putProtoland landId (some tok) p1 body st).2.users.map (·.wholeLandToken)) =
      st.users.map (·.wholeLandToken) := by
  refine ⟨rfl, ?_, ?_⟩
  · rw [putProtoland_of_found landId tok p1 body st u hu ht]
  · rw [putProtoland_of_found landId tok p1 body st u hu ht]
    show (landWrite landId u body st).users.map (·.wholeLandToken) = _
    unfold landWrite
    rcases Bool.eq_false_or_eq_true (noPath u.landSavePath) with hnp | hnp
    · simp only [hnp, if_pos rfl]
      exact map_wholeLandToken_setPath st.users landId (defaultLandPath landId)
    · simp only [hnp]
      rw [if_neg (by simp)]

/-- C1 amended, witness. -/
theorem put_ignores_save_token_witness :
    findUserByMayhem "42" baseState.users = some user42 ∧
    "tok42" = user42.userAccessToken ∧
    (putProtoland "42" (some "tok42") (some "T1") [1] baseState =
      putProtoland "42" (some "tok42") (some "ZZ") [1] baseState ∧
     (putProtoland "42" (some "tok42") (some "T1") [1] baseState).1 =
      LandPutResult.success ∧
     ((putProtoland "42" (some "tok42") (some "T1") [1] baseState).2.users.map
       (·.wholeLandToken)) = baseState.users.map (·.wholeLandToken)) :=
  ⟨by decide, by decide,
    put_ignores_save_token baseState "42" "tok42" [1] user42 (some "T1") (some "ZZ")
      (by decide) (by decide)⟩

/-! ## C2 — mailbox drain-then-clear -/

/-- C2: starting with no queued events for owner `o`, enqueueing three
envelopes makes the drain endpoint return exactly those three in
insertion order (the drain handler performs no write); the owner's next
successful document put succeeds and, as part of the same handler
(`clearEventsFile` on the write path), deletes the queue, after which
drain returns the empty sequence. -/
theorem mailbox_drain_then_clear
    (st : ServerState) (o tok : String) (u : UserData) (e1 e2 e3 : EventMsg)
    (body : List Nat) (wlt : Option String)
    (h0 : st.events o = none)
    (hu : findUserByMayhem o st.users = some u)
    (ht : tok = u.userAccessToken) :
    getEvents o (postEvent o e3 (postEvent o e2 (postEvent o e1 st))) = [e1, e2, e3] ∧
    (putProtoland o (some tok) wlt body
      (postEvent o e3 (postEvent o e2 (postEvent o e1 st)))).1 = LandPutResult.success ∧
    getEvents o (putProtoland o (some tok) wlt body
      (postEvent o e3 (postEvent o e2 (postEvent o e1 st)))).2 = [] := by
  have hu3 : findUserByMayhem o
      (postEvent o e3 (postEvent o e2 (postEvent o e1 st))).users = some u := hu
  refine ⟨?_, ?_, ?_⟩
  · simp [getEvents, postEvent, h0]
  · rw [putProtoland_of_found o tok wlt body _ u hu3 ht]
  · rw [putProtoland_of_found o tok wlt body _ u hu3 ht]
    simp [getEvents, landWrite]

/-- C2, witness. -/
theorem mailbox_drain_then_clear_witness :
    baseState.events "42" = none ∧
    findUserByMayhem "42" baseState.users = some user42 ∧
    "tok42" = user42.userAccessToken ∧
    (getEvents "42" (postEvent "42" ⟨"e3", "43", "42"⟩
        (postEvent "42" ⟨"e2", "43", "42"⟩ (postEvent "42" ⟨"e1", "43", "42"⟩ baseState))) =
      [⟨"e1", "43", "42"⟩, ⟨"e2", "43", "42"⟩, ⟨"e3", "43", "42"⟩] ∧
     (putProtoland "42" (some "tok42") none [9]
        (postEvent "42" ⟨"e3", "43", "42"⟩ (postEvent "42" ⟨"e2", "43", "42"⟩
          (postEvent "42" ⟨"e1", "43", "42"⟩ baseState)))).1 = LandPutResult.success ∧
     getEvents "42" (putProtoland "42" (some "tok42") none [9]
        (postEvent "42" ⟨"e3", "43", "42"⟩ (postEvent "42" ⟨"e2", "43", "42"⟩
          (postEvent "42" ⟨"e1", "43", "42"⟩ baseState)))).2 = []) :=
  ⟨by decide, by decide, by decide,
    mailbox_drain_then_clear baseState "42" "tok42" user42
      ⟨"e1", "43", "42"⟩ ⟨"e2", "43", "42"⟩ ⟨"e3", "43", "42"⟩ [9] none
      (by decide) (by decide) (by decide)⟩

/-! ## C7 — read failure semantics -/

theorem serveLand_ok (u : UserData) (st : ServerState) (p : String) (bs : List Nat)
    (hp : u.landSavePath = some p) (hpne : (p == "") = false)
    (hfe : st.files p = some bs) (hbs : bs ≠ []) :
    serveLand u st = LandGetResult.ok bs := by
  unfold serveLand
  rw [hp, if_neg (show ¬ noPath (some p) = true by simp [noPath, hpne]),
    Option.getD_some, hfe]
  cases bs with
  | nil => exact absurd rfl hbs
  | cons x xs => rfl

/-- C7: for an authorized read (here: the owner's own read), an account
with no registered `LandSavePath` yields the 404 `LAND_NOT_FOUND`
response, and a registered path whose stored file is zero bytes is
likewise answered with 404 rather than the empty bytes. -/
theorem read_notfound_missing_or_empty
    (st : ServerState) (landId tok : String) (u : UserData)
    (hu : findUserByIdParam landId st.users = some u)
    (hown : tok = u.userAccessToken) :
    (u.landSavePath = none →
      getProtoland landId (some tok) st = LandGetResult.landNotFound) ∧
    (∀ p, u.landSavePath = some p → st.files p = some [] →
      getProtoland landId (some tok) st = LandGetResult.landNotFound) := by
  have hserve : getProtoland landId (some tok) st = serveLand u st := by
    rw [getProtoland_found landId tok st u hu]
    subst hown
    simp
  constructor
  · intro hnone
    rw [hserve]
    unfold serveLand
    rw [hnone, if_pos (show noPath none = true from rfl)]
  · intro p hp hfe
    rw [hserve]
    unfold serveLand
    rcases Bool.eq_false_or_eq_true (p == "") with hpe | hpe
    · rw [hp, if_pos (show noPath (some p) = true by simp [noPath, hpe])]
    · rw [hp, if_neg (show ¬ noPath (some p) = true by simp [noPath, hpe]),
        Option.getD_some, hfe]

/-- C7, witness (account 43 has no registered save path). -/
theorem read_notfound_missing_or_empty_witness :
    findUserByIdParam "43" baseState.users = some user43 ∧
    "tok43" = user43.userAccessToken ∧
    ((user43.landSavePath = none →
      getProtoland "43" (some "tok43") baseState = LandGetResult.landNotFound) ∧
     (∀ p, user43.landSavePath = some p → baseState.files p = some [] →
      getProtoland "43" (some "tok43") baseState = LandGetResult.landNotFound)) :=
  ⟨by decide, by decide,
    read_notfound_missing_or_empty baseState "43" "tok43" user43 (by decide) (by decide)⟩

/-! ## C10 — unknown account placeholder -/

/-- C10: a land read that carries a bearer token but names an identifier
with no `UserData` row succeeds with an empty placeholder `LandMessage`
carrying the requested identifier; it is not the 404 `LAND_NOT_FOUND`
outcome. -/
theorem unknown_account_placeholder (st : ServerState) (landId tok : String)
    (h : findUserByIdParam landId st.users = none) :
    getProtoland landId (some tok) st = LandGetResult.emptyLand landId ∧
    LandGetResult.emptyLand landId ≠ LandGetResult.landNotFound := by
  constructor
  · unfold getProtoland
    rw [h]
  · exact fun hc => LandGetResult.noConfusion hc

/-- C10, witness. -/
theorem unknown_account_placeholder_witness :
    findUserByIdParam "99" baseState.users = none ∧
    (getProtoland "99" (some "tok42") baseState = LandGetResult.emptyLand "99" ∧
     LandGetResult.emptyLand "99" ≠ LandGetResult.landNotFound) :=
  ⟨by decide, unknown_account_placeholder baseState "99" "tok42" (by decide)⟩

/-! ## C9 — track preserves connectedAt and sessionId -/

/-- C9: `trackSession` for an account with an existing session keeps that
session's `connectedAt` and `sessionId`, stamps `lastActive := now`, and
overwrites the supplied fields (`mayhemId`, `hostname`, metadata); a
fresh `connectedAt`/`sessionId` pair is assigned only when no session
exists. -/
theorem track_preserves_connectedAt
    (st : SessionStore) (uid mid host : String) (extra : List (String × String))
    (now : Int) (fresh : String)
    (hu : (uid == "") = false) (hm : (mid == "") = false) :
    (trackSession uid mid host extra now fresh st).1 = true ∧
    (∀ s, storeGet uid st = some s →
      storeGet uid (trackSession uid mid host extra now fresh st).2 =
        some { userId := uid, mayhemId := mid, hostname := host, lastActive := now
               connectedAt := s.connectedAt, sessionId := s.sessionId, extra := extra }) ∧
    (storeGet uid st = none →
      storeGet uid (trackSession uid mid host extra now fresh st).2 =
        some { userId := uid, mayhemId := mid, hostname := host, lastActive := now
               connectedAt := now, sessionId := fresh, extra := extra }) := by
  refine ⟨?_, ?_, ?_⟩
  · unfold trackSession
    simp [hu, hm]
  · intro s hs
    have htrack : (trackSession uid mid host extra now fresh st).2 =
        storeSet uid
          { userId := uid, mayhemId := mid, hostname := host, lastActive := now
            connectedAt := s.connectedAt, sessionId := s.sessionId, extra := extra } st := by
      unfold trackSession
      simp [hu, hm, hs]
    rw [htrack, storeGet_storeSet]
  · intro hs
    have htrack : (trackSession uid mid host extra now fresh st).2 =
        storeSet uid
          { userId := uid, mayhemId := mid, hostname := host, lastActive := now
            connectedAt := now, sessionId := fresh, extra := extra } st := by
      unfold trackSession
      simp [hu, hm, hs]
    rw [htrack, storeGet_storeSet]

/-- C9, witness. -/
theorem track_preserves_connectedAt_witness :
    (("A" == "") = false) ∧ (("m2" == "") = false) ∧
    ((trackSession "A" "m2" "h2" [] 7 "f" [("A", sessA)]).1 = true ∧
     (∀ s, storeGet "A" [("A", sessA)] = some s →
      storeGet "A" (trackSession "A" "m2" "h2" [] 7 "f" [("A", sessA)]).2 =
        some { userId := "A", mayhemId := "m2", hostname := "h2", lastActive := 7
               connectedAt := s.connectedAt, sessionId := s.sessionId, extra := [] }) ∧
     (storeGet "A" [("A", sessA)] = none →
      storeGet "A" (trackSession "A" "m2" "h2" [] 7 "f" [("A", sessA)]).2 =
        some { userId := "A", mayhemId := "m2", hostname := "h2", lastActive := 7
               connectedAt := 7, sessionId := "f", extra := [] })) :=
  ⟨by decide, by decide,
    track_preserves_connectedAt [("A", sessA)] "A" "m2" "h2" [] 7 "f"
      (by decide) (by decide)⟩

/-! ## C8 — friend-fetch authorization -/

/-- C8: given the land owner's account row, the fetch is rejected (the
400 response realizing the spec's `Forbidden`) exactly when the bearer
token is not the owner's and the requester does not hold a directed
accepted friend row toward the owner; when the requester is the owner or
such an accepted friend and a non-empty document is stored, the stored
bytes are returned. -/
theorem fetch_friend_authorization
    (st : ServerState) (landId tok : String) (u : UserData)
    (hu : findUserByIdParam landId st.users = some u) :
    (getProtoland landId (some tok) st = LandGetResult.rejected ↔
      (tok == u.userAccessToken) = false ∧
        ∀ ru, findUserByToken tok st.users = some ru →
          isAccepted ru.mayhemId u.mayhemId st.friends = false) ∧
    (∀ p bs, ((tok == u.userAccessToken) = true ∨
        (∃ ru, findUserByToken tok st.users = some ru ∧
          isAccepted ru.mayhemId u.mayhemId st.friends = true)) →
      u.landSavePath = some p → (p == "") = false → st.files p = some bs → bs ≠ [] →
      getProtoland landId (some tok) st = LandGetResult.ok bs) := by
  rw [getProtoland_found landId tok st u hu]
  constructor
  · rcases Bool.eq_false_or_eq_true (tok == u.userAccessToken) with hown | hown
    · constructor
      · intro hres
        simp only [hown, Bool.not_true, Bool.false_and] at hres
        exact absurd hres (serveLand_ne_rejected u st)
      · rintro ⟨hfalse, -⟩
        rw [hown] at hfalse
        exact Bool.noConfusion hfalse
    · cases hreq : findUserByToken tok st.users with
      | none =>
        constructor
        · intro _
          refine ⟨hown, fun ru hru => ?_⟩
          exact Option.noConfusion hru
        · intro _
          simp [hown]
      | some ru =>
        rcases Bool.eq_false_or_eq_true
            (isAccepted ru.mayhemId u.mayhemId st.friends) with hacc | hacc
        · constructor
          · intro hres
            simp [hown, hacc] at hres
            exact absurd hres (serveLand_ne_rejected u st)
          · rintro ⟨-, hall⟩
            have hfa := hall ru rfl
            rw [hfa] at hacc
            exact Bool.noConfusion hacc
        · constructor
          · intro _
            refine ⟨hown, fun ru' hru' => ?_⟩
            rw [Option.some.injEq] at hru'
            subst hru'
            exact hacc
          · intro _
            simp [hown, hacc]
  · intro p bs hauth hp hpne hfe hbs
    have hcond : (!(tok == u.userAccessToken) &&
        !(!(tok == u.userAccessToken) &&
          (match (findUserByToken tok st.users).map (·.mayhemId) with
           | some rm => isAccepted rm u.mayhemId st.friends
           | none => false))) = false := by
      rcases hauth with hown | ⟨ru, hru, hacc⟩
      · simp [hown]
      · rcases Bool.eq_false_or_eq_true (tok == u.userAccessToken) with hown | hown
        · simp [hown]
        · simp [hown, hru, hacc]
    rw [hcond]
    simp only [Bool.false_eq_true, if_false]
    exact serveLand_ok u st p bs hp hpne hfe hbs

/-- C8, witness: account 43 holds an accepted friend row toward owner 42
and fetches 42's stored document. -/
theorem fetch_friend_authorization_witness :
    findUserByIdParam "42" friendState.users = some user42 ∧
    ((getProtoland "42" (some "tok43") friendState = LandGetResult.rejected ↔
      (("tok43" == user42.userAccessToken) = false ∧
        ∀ ru, findUserByToken "tok43" friendState.users = some ru →
          isAccepted ru.mayhemId user42.mayhemId friendState.friends = false)) ∧
     (∀ p bs, (("tok43" == user42.userAccessToken) = true ∨
        (∃ ru, findUserByToken "tok43" friendState.users = some ru ∧
          isAccepted ru.mayhemId user42.mayhemId friendState.friends = true)) →
      user42.landSavePath = some p → (p == "") = false →
      friendState.files p = some bs → bs ≠ [] →
      getProtoland "42" (some "tok43") friendState = LandGetResult.ok bs)) :=
  ⟨by decide, fetch_friend_authorization friendState "42" "tok43" user42 (by decide)⟩

end GameServer
